import Mathlib

/-!
Shallow embedding of the vision service of the AI Tennis Serve Analysis
System (`visionService`): the kinematic key-moment extractor
`analyzeKinematics`, the gesture signal detector loop of
`detectSignalInStream`, and the frame-collection loop of
`processVideoForPose`.  JavaScript numbers are modelled as real numbers;
array indexing `a[i]` (which yields `undefined` out of range) is modelled
by `List.getElem?`.  The extractor's `indexOf` calls are modelled by
tracking the scan position directly, which is exact for buffers whose
frames are pairwise distinct objects (as produced by the collection loop).
-/

open Classical

/-- A MediaPipe normalized landmark; only the `x` and `y` coordinates are
consulted by the code under study. -/
structure Landmark where
  x : ℝ
  y : ℝ

/-- One element of the pose buffer: a presentation time together with the
landmark array detected at that time (`LandmarkFrame` in `types.ts`). -/
structure LandmarkFrame where
  time : ℝ
  landmarks : List Landmark

/-- Result record of `analyzeKinematics` (the `KeyMoments` mapping with its
four fixed keys `Serve Start`, `Toss Peak`, `Trophy Pose`, `Contact Point`). -/
structure KeyMoments where
  serveStart : ℝ
  tossPeak : Option ℝ
  trophyPose : Option ℝ
  contactPoint : Option ℝ

/-- Landmark indices used by the extractor (`LEFT_WRIST`, `RIGHT_WRIST`,
`RIGHT_SHOULDER`, `RIGHT_ELBOW`). -/
def LEFT_WRIST : Nat := 15

def RIGHT_WRIST : Nat := 16

def RIGHT_SHOULDER : Nat := 12

def RIGHT_ELBOW : Nat := 14

/-- The vertical coordinate of landmark `li` of the frame stored in a
running-best accumulator, when both the accumulator and that landmark
exist (`best?.landmarks[li].y ?? Infinity`: the comparison against
`Infinity` is modelled by the `none` case of this value). -/
noncomputable def accWristY (li : Nat) (acc : Option (Nat × LandmarkFrame)) : Option ℝ :=
  acc.bind fun p => (p.2.landmarks[li]?).map fun l => l.y

/-- One step of the running-minimum scans of `analyzeKinematics`
(lines 268-273 for the toss peak with landmark 15, lines 308-314 for the
contact point with landmark 16): a frame missing the landmark is skipped,
and the accumulator is replaced exactly when the frame's landmark has a
strictly smaller `y` than the accumulator's (`y < (… ?? Infinity)`). -/
noncomputable def minStep (li i : Nat) (f : LandmarkFrame) (acc : Option (Nat × LandmarkFrame)) :
    Option (Nat × LandmarkFrame) :=
  match f.landmarks[li]? with
  | none => acc
  | some lw =>
    match accWristY li acc with
    | none => some (i, f)
    | some b => if lw.y < b then some (i, f) else acc

/-- The running-minimum loop itself, carrying the index of the current
frame so that the `indexOf` of the selected frame is available directly. -/
noncomputable def minWristGo (li : Nat) : Nat → List LandmarkFrame →
    Option (Nat × LandmarkFrame) → Option (Nat × LandmarkFrame)
  | _, [], acc => acc
  | i, f :: rest, acc => minWristGo li (i + 1) rest (minStep li i f acc)

/-- The toss-peak pass: minimise the left wrist's `y` over the whole
buffer (first frame attaining the minimum is kept, by the strict
comparison). -/
noncomputable def tossBest (poseData : List LandmarkFrame) : Option (Nat × LandmarkFrame) :=
  minWristGo LEFT_WRIST 0 poseData none

/-- The elbow angle in degrees computed by the trophy-pose pass:
`acos(dot/(mag1*mag2)) * 180 / π` for the vectors elbow→wrist and
elbow→shoulder. -/
noncomputable def elbowAngleDeg (rShoulder rElbow rWrist : Landmark) : ℝ :=
  let v1x := rWrist.x - rElbow.x
  let v1y := rWrist.y - rElbow.y
  let v2x := rShoulder.x - rElbow.x
  let v2y := rShoulder.y - rElbow.y
  let dotProduct := v1x * v2x + v1y * v2y
  let mag1 := Real.sqrt (v1x ^ 2 + v1y ^ 2)
  let mag2 := Real.sqrt (v2x ^ 2 + v2y ^ 2)
  Real.arccos (dotProduct / (mag1 * mag2)) * 180 / Real.pi

/-- A frame is selected by the trophy-pose pass iff its right shoulder,
elbow and wrist are all present, neither vector has zero magnitude
(`continue` otherwise), the elbow angle lies strictly between 80° and
130°, and the wrist is above the elbow (`rWrist.y < rElbow.y`). -/
def trophyCond (f : LandmarkFrame) : Prop :=
  match f.landmarks[RIGHT_SHOULDER]?, f.landmarks[RIGHT_ELBOW]?, f.landmarks[RIGHT_WRIST]? with
  | some rShoulder, some rElbow, some rWrist =>
    Real.sqrt ((rWrist.x - rElbow.x) ^ 2 + (rWrist.y - rElbow.y) ^ 2) ≠ 0 ∧
    Real.sqrt ((rShoulder.x - rElbow.x) ^ 2 + (rShoulder.y - rElbow.y) ^ 2) ≠ 0 ∧
    80 < elbowAngleDeg rShoulder rElbow rWrist ∧
    elbowAngleDeg rShoulder rElbow rWrist < 130 ∧
    rWrist.y < rElbow.y
  | _, _, _ => False

/-- The trophy-pose loop: first frame at or after the start index that
satisfies `trophyCond` (the loop `break`s at the first match). -/
noncomputable def trophyGo : Nat → List LandmarkFrame → Option (Nat × LandmarkFrame)
  | _, [] => none
  | i, f :: rest => if trophyCond f then some (i, f) else trophyGo (i + 1) rest

/-- The trophy-pose pass: runs only when the toss peak was found
(`tossPeakIndex !== -1`), scanning forward from the toss-peak index. -/
noncomputable def trophyBest (poseData : List LandmarkFrame) : Option (Nat × LandmarkFrame) :=
  match tossBest poseData with
  | none => none
  | some (ti, _) => trophyGo ti (poseData.drop ti)

/-- The contact-point pass: runs only when the trophy pose was found,
minimising the right wrist's `y` from the trophy-pose index onward. -/
noncomputable def contactBest (poseData : List LandmarkFrame) : Option (Nat × LandmarkFrame) :=
  match trophyBest poseData with
  | none => none
  | some (ti, _) => minWristGo RIGHT_WRIST ti (poseData.drop ti) none

/-- `analyzeKinematics(poseData, duration)`: early return with all events
absent for buffers of fewer than 10 frames, otherwise the three passes in
sequence; every reported event is the selected frame's `time`. -/
noncomputable def analyzeKinematics (poseData : List LandmarkFrame) (duration : ℝ) :
    KeyMoments :=
  if poseData.length < 10 then
    { serveStart := match poseData with | [] => 0 | f :: _ => f.time
      tossPeak := none
      trophyPose := none
      contactPoint := none }
  else
    { serveStart := match poseData with | [] => 0 | f :: _ => f.time
      tossPeak := (tossBest poseData).map fun p => p.2.time
      trophyPose := (trophyBest poseData).map fun p => p.2.time
      contactPoint := (contactBest poseData).map fun p => p.2.time }

/-! ## The gesture signal detector (`detectSignalInStream`) -/

/-- The three externally visible detector states. -/
inductive SignalState where
  | idle
  | detecting
  | locked
deriving DecidableEq, Repr

/-- Landmark indices used by the detector (`WRIST_L`, `WRIST_R`,
`SHOULDER_L`, `SHOULDER_R`). -/
def WRIST_L : Nat := 15

def WRIST_R : Nat := 16

def SHOULDER_L : Nat := 11

def SHOULDER_R : Nat := 12

/-- `STILLNESS_THRESHOLD = 0.02` (normalized units). -/
noncomputable def STILLNESS_THRESHOLD : ℝ := 0.02

/-- `STILL_FRAMES_REQUIRED = 120`. -/
def STILL_FRAMES_REQUIRED : Nat := 120

/-- The mutable closure state of one `detectSignalInStream` activation:
`lastWristPos`, `stillFrameCount` and `lastReportedState`. -/
structure DetectorState where
  lastWristPos : Option (ℝ × ℝ)
  stillFrameCount : Nat
  lastReported : SignalState

/-- The initial closure state: no remembered position, zero counter, and
`lastReportedState = 'idle'`. -/
def initDetector : DetectorState :=
  { lastWristPos := none, stillFrameCount := 0, lastReported := SignalState.idle }

/-- `reportState`: updates `lastReportedState` and fires the callback
exactly when the new state differs from the previously reported one.
The fired callbacks are returned as a list (empty or singleton). -/
def reportState (s : DetectorState) (newState : SignalState) :
    DetectorState × List SignalState :=
  if newState ≠ s.lastReported then
    ({ s with lastReported := newState }, [newState])
  else (s, [])

/-- The right-wrist half of the hand-raised test (lines 209-212): right
wrist and shoulder present and wrist above shoulder. -/
noncomputable def rightRaisedWrist (landmarks : List Landmark) : Option Landmark :=
  match landmarks[WRIST_R]?, landmarks[SHOULDER_R]? with
  | some wristR, some shoulderR =>
    if wristR.y < shoulderR.y then some wristR else none
  | _, _ => none

/-- The raised wrist selected by one tick (lines 199-213): the left wrist
when present and above the left shoulder, otherwise the right wrist when
present and above the right shoulder, otherwise none. -/
noncomputable def raisedWristOf (landmarks : List Landmark) : Option Landmark :=
  match landmarks[WRIST_L]?, landmarks[SHOULDER_L]? with
  | some wristL, some shoulderL =>
    if wristL.y < shoulderL.y then some wristL else rightRaisedWrist landmarks
  | _, _ => rightRaisedWrist landmarks

/-- One execution of the `detectLoop` body on a detection result (`none`
models an absent or empty `results.landmarks`).  Returns the new closure
state and the callbacks fired during the tick, in order.  The final
`stillFrameCount >= STILL_FRAMES_REQUIRED` check reports `locked`; the
accompanying `return` (which stops the loop) is modelled in `detectRun`. -/
noncomputable def detectLoopTick (s : DetectorState) (det : Option (List Landmark)) :
    DetectorState × List SignalState :=
  let branch : DetectorState × List SignalState :=
    match det.bind raisedWristOf with
    | some raisedWrist =>
      let r1 := reportState s SignalState.detecting
      let s2 : DetectorState :=
        match r1.1.lastWristPos with
        | some lastPos =>
          if Real.sqrt ((raisedWrist.x - lastPos.1) ^ 2 + (raisedWrist.y - lastPos.2) ^ 2) <
              STILLNESS_THRESHOLD then
            { r1.1 with stillFrameCount := r1.1.stillFrameCount + 1 }
          else
            { r1.1 with stillFrameCount := 1,
                        lastWristPos := some (raisedWrist.x, raisedWrist.y) }
        | none =>
          { r1.1 with stillFrameCount := 1,
                      lastWristPos := some (raisedWrist.x, raisedWrist.y) }
      (s2, r1.2)
    | none =>
      let r1 := reportState s SignalState.idle
      ({ r1.1 with stillFrameCount := 0, lastWristPos := none }, r1.2)
  if STILL_FRAMES_REQUIRED ≤ branch.1.stillFrameCount then
    let r2 := reportState branch.1 SignalState.locked
    (r2.1, branch.2 ++ r2.2)
  else branch

/-- Repeated invocation of the loop body over a finite sequence of ticks;
the loop stops (does not schedule another frame) as soon as the counter
has reached `STILL_FRAMES_REQUIRED`, i.e. after the tick that reported
`locked`. -/
noncomputable def detectRun (s : DetectorState) :
    List (Option (List Landmark)) → DetectorState × List SignalState
  | [] => (s, [])
  | det :: rest =>
    let step := detectLoopTick s det
    if STILL_FRAMES_REQUIRED ≤ step.1.stillFrameCount then step
    else
      let tail := detectRun step.1 rest
      (tail.1, step.2 ++ tail.2)

/-! ## The frame-collection loop (`processVideoForPose`) -/

/-- One observation made by `processFrame`: either the video reports
`paused || ended` (`finished`), or a frame is presented with the current
playback time and the first detected pose, if any (`results.landmarks`
non-empty). -/
inductive VTick where
  | finished
  | sample (currentTime : ℝ) (det : Option (List Landmark))

/-- The loop state of `processVideoForPose`: the dedupe timestamp
`lastTime` (initially `-1`) and the accumulated pose buffer. -/
structure CollectState where
  lastTime : ℝ
  poseData : List LandmarkFrame

/-- The initial collection state. -/
noncomputable def initCollect : CollectState := { lastTime := -1, poseData := [] }

/-- One execution of the `processFrame` body.  Returns the new state, the
progress values passed to `setProgress` during the tick, and whether the
promise resolved (ending the loop).  On `finished`, `setProgress(100)` is
called and the loop resolves; on a sample with `currentTime > lastTime`,
the detection (when present) is appended to the buffer and
`setProgress((currentTime / duration) * 100)` is called; otherwise the
tick does nothing. -/
noncomputable def processFrameTick (duration : ℝ) (s : CollectState) (t : VTick) :
    CollectState × List ℝ × Bool :=
  match t with
  | VTick.finished => (s, [100], true)
  | VTick.sample currentTime det =>
    if s.lastTime < currentTime then
      ({ lastTime := currentTime
         poseData := s.poseData ++
           (match det with
            | some landmarks => [{ time := currentTime, landmarks := landmarks }]
            | none => []) },
       [currentTime / duration * 100], false)
    else (s, [], false)

/-- The frame-collection loop over a finite sequence of observations:
stops at the first `finished` observation (second component of the result
collects every progress value emitted, third records whether the loop
resolved within the sequence). -/
noncomputable def collectRun (duration : ℝ) (s : CollectState) :
    List VTick → CollectState × List ℝ × Bool
  | [] => (s, [], false)
  | t :: rest =>
    let step := processFrameTick duration s t
    if step.2.2 then step
    else
      let tail := collectRun duration step.1 rest
      (tail.1, step.2.1 ++ tail.2.1, tail.2.2)

/-! ## Concrete test data -/

/-- A filler landmark for array positions the code never reads. -/
noncomputable def pad : Landmark := { x := 0, y := 0 }

/-- A 17-entry landmark array with the given right shoulder (12), right
elbow (14), left wrist (15) and right wrist (16). -/
noncomputable def mkLms (rS rE lw rW : Landmark) : List Landmark :=
  [pad, pad, pad, pad, pad, pad, pad, pad, pad, pad, pad, pad, rS, pad, rE, lw, rW]

/-- A test frame whose right shoulder `(7/10, 1/2)`, right elbow
`(1/2, 1/2)` and right wrist `(1/2, rWy)` put the elbow→wrist vector
vertical and the elbow→shoulder vector horizontal whenever
`rWy ≠ 1/2`; the left wrist sits at `(1/5, lwY)`. -/
noncomputable def tFrame (t lwY rWy : ℝ) : LandmarkFrame :=
  { time := t
    landmarks := mkLms { x := 7/10, y := 1/2 } { x := 1/2, y := 1/2 }
      { x := 1/5, y := lwY } { x := 1/2, y := rWy } }

/-- A ten-frame buffer: the toss peak (minimal left-wrist `y`) and the
trophy pose are both at frame 0, and the right-wrist `y` over the
contact-point scan attains its minimum `1/10` at the two frames 8 and 9
(a tie), with `2/5` on frames 1-7 and `3/10` on frame 0. -/
noncomputable def cBuf : List LandmarkFrame :=
  [tFrame 0 0 (3/10),
   tFrame (1/10) (1/2) (2/5),
   tFrame (2/10) (1/2) (2/5),
   tFrame (3/10) (1/2) (2/5),
   tFrame (4/10) (1/2) (2/5),
   tFrame (5/10) (1/2) (2/5),
   tFrame (6/10) (1/2) (2/5),
   tFrame (7/10) (1/2) (2/5),
   tFrame (8/10) (1/2) (1/10),
   tFrame (9/10) (1/2) (1/10)]

/-- A one-frame buffer for the degenerate-case theorem. -/
noncomputable def shortBuf : List LandmarkFrame := [tFrame (1/2) (1/2) (1/2)]

/-- A detector tick whose left wrist `(x, y)` is above the left shoulder
`(x, y + 1)` (recall that smaller `y` is higher in image space), so the
hand counts as raised at position `(x, y)`. -/
noncomputable def raisedTick (x y : ℝ) : Option (List Landmark) :=
  some [pad, pad, pad, pad, pad, pad, pad, pad, pad, pad, pad,
        { x := x, y := y + 1 }, pad, pad, pad, { x := x, y := y }]

/-- A detector tick with no detected pose: the hand is not raised. -/
def idleTick : Option (List Landmark) := none

/-- `locked` occurs only as the final element of a callback trace. -/
def lockedOnlyLast (tr : List SignalState) : Prop :=
  ∀ pre post, tr = pre ++ SignalState.locked :: post → post = []

/-! ## Helper lemmas -/

theorem mkLms_rShoulder (a b c d : Landmark) :
    (mkLms a b c d)[RIGHT_SHOULDER]? = some a := rfl

theorem mkLms_rElbow (a b c d : Landmark) :
    (mkLms a b c d)[RIGHT_ELBOW]? = some b := rfl

theorem mkLms_lWrist (a b c d : Landmark) :
    (mkLms a b c d)[LEFT_WRIST]? = some c := rfl

theorem mkLms_rWrist (a b c d : Landmark) :
    (mkLms a b c d)[RIGHT_WRIST]? = some d := rfl

/-! ## C9: the `duration` argument is never consulted -/

/-- C9: the extractor's output does not depend on its `duration` argument:
`analyzeKinematics` returns identical results on the same buffer for any
two duration values. -/
theorem analyzeKinematics_duration_independent (poseData : List LandmarkFrame) (d1 d2 : ℝ) :
    analyzeKinematics poseData d1 = analyzeKinematics poseData d2 := rfl

/-! ## C6: buffers of fewer than 10 frames -/

/-- C6: for a buffer of fewer than 10 frames, `Toss Peak`, `Trophy Pose`
and `Contact Point` are all absent, and `Serve Start` is the first
frame's time for a non-empty buffer and `0` for an empty one. -/
theorem analyzeKinematics_short_buffer (poseData : List LandmarkFrame) (d : ℝ)
    (h : poseData.length < 10) :
    (analyzeKinematics poseData d).tossPeak = none ∧
    (analyzeKinematics poseData d).trophyPose = none ∧
    (analyzeKinematics poseData d).contactPoint = none ∧
    (∀ f rest, poseData = f :: rest → (analyzeKinematics poseData d).serveStart = f.time) ∧
    (poseData = [] → (analyzeKinematics poseData d).serveStart = 0) := by
  unfold analyzeKinematics
  rw [if_pos h]
  refine ⟨rfl, rfl, rfl, ?_, ?_⟩
  · rintro f rest rfl
    rfl
  · rintro rfl
    rfl

/-- Witness for C6 at a concrete one-frame buffer. -/
theorem analyzeKinematics_short_buffer_witness :
    shortBuf.length < 10 ∧
    ((analyzeKinematics shortBuf 1).tossPeak = none ∧
     (analyzeKinematics shortBuf 1).trophyPose = none ∧
     (analyzeKinematics shortBuf 1).contactPoint = none ∧
     (∀ f rest, shortBuf = f :: rest → (analyzeKinematics shortBuf 1).serveStart = f.time) ∧
     (shortBuf = [] → (analyzeKinematics shortBuf 1).serveStart = 0)) :=
  ⟨by norm_num [shortBuf],
   analyzeKinematics_short_buffer shortBuf 1 (by norm_num [shortBuf])⟩

/-! ## Structure lemmas for the running-minimum scan -/

theorem minStep_cases (li i : Nat) (f : LandmarkFrame) (acc : Option (Nat × LandmarkFrame)) :
    minStep li i f acc = acc ∨ minStep li i f acc = some (i, f) := by
  unfold minStep
  rcases hlm : f.landmarks[li]? with _ | lw
  · exact Or.inl rfl
  · rcases hacc : accWristY li acc with _ | b
    · exact Or.inr rfl
    · by_cases h : lw.y < b
      · simp [h]
      · simp [h]

theorem minStep_isSome_of_acc (li i : Nat) (f : LandmarkFrame)
    (acc : Option (Nat × LandmarkFrame)) (h : acc.isSome) :
    (minStep li i f acc).isSome := by
  rcases minStep_cases li i f acc with hc | hc <;> rw [hc]
  · exact h
  · rfl

theorem minStep_isSome_of_lm (li i : Nat) (f : LandmarkFrame)
    (acc : Option (Nat × LandmarkFrame)) (h : (f.landmarks[li]?).isSome) :
    (minStep li i f acc).isSome := by
  unfold minStep
  rcases hlm : f.landmarks[li]? with _ | lw
  · rw [hlm] at h
    simp at h
  · rcases hacc : accWristY li acc with _ | b
    · rfl
    · by_cases hlt : lw.y < b
      · simp [hlt]
      · simp only [if_neg hlt]
        rcases acc with _ | p
        · simp [accWristY] at hacc
        · rfl

theorem minWristGo_isSome (li : Nat) (l : List LandmarkFrame) :
    ∀ (i : Nat) (acc : Option (Nat × LandmarkFrame)),
      acc.isSome → (minWristGo li i l acc).isSome := by
  induction l with
  | nil => intro i acc h; simpa [minWristGo] using h
  | cons f rest ih =>
    intro i acc h
    simp only [minWristGo]
    exact ih (i + 1) _ (minStep_isSome_of_acc li i f acc h)

theorem minWristGo_index (li : Nat) (l : List LandmarkFrame) :
    ∀ (i : Nat) (acc : Option (Nat × LandmarkFrame)) (j : Nat) (g : LandmarkFrame),
      minWristGo li i l acc = some (j, g) → acc = some (j, g) ∨ i ≤ j := by
  induction l with
  | nil =>
    intro i acc j g h
    simp only [minWristGo] at h
    exact Or.inl h
  | cons f rest ih =>
    intro i acc j g h
    simp only [minWristGo] at h
    rcases ih (i + 1) _ j g h with hm | hle
    · rcases minStep_cases li i f acc with hc | hc
      · rw [hc] at hm
        exact Or.inl hm
      · rw [hc] at hm
        simp only [Option.some.injEq, Prod.mk.injEq] at hm
        exact Or.inr (by omega)
    · exact Or.inr (by omega)

theorem minWristGo_spec (li : Nat) (l : List LandmarkFrame) :
    ∀ (i j : Nat) (g : LandmarkFrame) (w : Landmark),
      g.landmarks[li]? = some w →
      ∀ j' g', minWristGo li i l (some (j, g)) = some (j', g') →
      ∃ w', g'.landmarks[li]? = some w' ∧ w'.y ≤ w.y ∧
        (∀ (m : Nat) (h : LandmarkFrame) (v : Landmark),
          l[m]? = some h → h.landmarks[li]? = some v → w'.y ≤ v.y) ∧
        ((j' = j ∧ g' = g) ∨
          (∃ k, j' = i + k ∧ l[k]? = some g' ∧ w'.y < w.y ∧
            ∀ m, m < k → ∀ (h : LandmarkFrame) (v : Landmark),
              l[m]? = some h → h.landmarks[li]? = some v →
              w'.y < v.y)) := by
  induction l with
  | nil =>
    intro i j g w hw j' g' hrun
    simp only [minWristGo, Option.some.injEq, Prod.mk.injEq] at hrun
    obtain ⟨rfl, rfl⟩ := hrun
    refine ⟨w, hw, le_refl _, ?_, Or.inl ⟨rfl, rfl⟩⟩
    intro m h v hm
    simp at hm
  | cons f rest ih =>
    intro i j g w hw j' g' hrun
    simp only [minWristGo] at hrun
    rcases hlm : f.landmarks[li]? with _ | lw
    · have hstep : minStep li i f (some (j, g)) = some (j, g) := by
        unfold minStep
        rw [hlm]
      rw [hstep] at hrun
      obtain ⟨w', hw', hle, hall, hdisj⟩ := ih (i + 1) j g w hw j' g' hrun
      refine ⟨w', hw', hle, ?_, ?_⟩
      · intro m h v hm hv
        rcases m with _ | m
        · simp only [List.getElem?_cons_zero, Option.some.injEq] at hm
          rw [← hm, hlm] at hv
          cases hv
        · exact hall m h v (by simpa using hm) hv
      · rcases hdisj with hl | ⟨k, hk1, hk2, hk3, hk4⟩
        · exact Or.inl hl
        · refine Or.inr ⟨k + 1, by omega, by simpa using hk2, hk3, ?_⟩
          intro m hm h v hmh hv
          rcases m with _ | m
          · simp only [List.getElem?_cons_zero, Option.some.injEq] at hmh
            rw [← hmh, hlm] at hv
            cases hv
          · exact hk4 m (by omega) h v (by simpa using hmh) hv
    · have haccY : accWristY li (some (j, g)) = some w.y := by
        simp [accWristY, hw]
      by_cases hlt : lw.y < w.y
      · have hstep : minStep li i f (some (j, g)) = some (i, f) := by
          unfold minStep
          rw [hlm, haccY]
          simp [hlt]
        rw [hstep] at hrun
        obtain ⟨w', hw', hle, hall, hdisj⟩ := ih (i + 1) i f lw hlm j' g' hrun
        have hlt' : w'.y < w.y := lt_of_le_of_lt hle hlt
        refine ⟨w', hw', le_of_lt hlt', ?_, Or.inr ?_⟩
        · intro m h v hm hv
          rcases m with _ | m
          · simp only [List.getElem?_cons_zero, Option.some.injEq] at hm
            rw [← hm, hlm] at hv
            injection hv with hv
            rw [← hv]
            exact hle
          · exact hall m h v (by simpa using hm) hv
        · rcases hdisj with ⟨hj, hg⟩ | ⟨k, hk1, hk2, hk3, hk4⟩
          · refine ⟨0, by omega, by simp [hg], hlt', ?_⟩
            intro m hm
            exact absurd hm (Nat.not_lt_zero m)
          · refine ⟨k + 1, by omega, by simpa using hk2, hlt', ?_⟩
            intro m hm h v hmh hv
            rcases m with _ | m
            · simp only [List.getElem?_cons_zero, Option.some.injEq] at hmh
              rw [← hmh, hlm] at hv
              injection hv with hv
              rw [← hv]
              exact hk3
            · exact hk4 m (by omega) h v (by simpa using hmh) hv
      · have hstep : minStep li i f (some (j, g)) = some (j, g) := by
          unfold minStep
          rw [hlm, haccY]
          simp [hlt]
        rw [hstep] at hrun
        obtain ⟨w', hw', hle, hall, hdisj⟩ := ih (i + 1) j g w hw j' g' hrun
        have hwle : w.y ≤ lw.y := not_lt.mp hlt
        refine ⟨w', hw', hle, ?_, ?_⟩
        · intro m h v hm hv
          rcases m with _ | m
          · simp only [List.getElem?_cons_zero, Option.some.injEq] at hm
            rw [← hm, hlm] at hv
            injection hv with hv
            rw [← hv]
            exact le_trans hle hwle
          · exact hall m h v (by simpa using hm) hv
        · rcases hdisj with hl | ⟨k, hk1, hk2, hk3, hk4⟩
          · exact Or.inl hl
          · refine Or.inr ⟨k + 1, by omega, by simpa using hk2, hk3, ?_⟩
            intro m hm h v hmh hv
            rcases m with _ | m
            · simp only [List.getElem?_cons_zero, Option.some.injEq] at hmh
              rw [← hmh, hlm] at hv
              injection hv with hv
              rw [← hv]
              exact lt_of_lt_of_le hk3 hwle
            · exact hk4 m (by omega) h v (by simpa using hmh) hv

theorem minWristGo_none_spec (li : Nat) (l : List LandmarkFrame) :
    ∀ (i : Nat) (j' : Nat) (g' : LandmarkFrame),
      minWristGo li i l none = some (j', g') →
      ∃ k w', j' = i + k ∧ l[k]? = some g' ∧ g'.landmarks[li]? = some w' ∧
        (∀ (m : Nat) (h : LandmarkFrame) (v : Landmark),
          l[m]? = some h → h.landmarks[li]? = some v → w'.y ≤ v.y) ∧
        (∀ m, m < k → ∀ (h : LandmarkFrame) (v : Landmark),
          l[m]? = some h → h.landmarks[li]? = some v → w'.y < v.y) := by
  induction l with
  | nil =>
    intro i j' g' h
    simp [minWristGo] at h
  | cons f rest ih =>
    intro i j' g' hrun
    simp only [minWristGo] at hrun
    rcases hlm : f.landmarks[li]? with _ | lw
    · have hstep : minStep li i f none = none := by
        unfold minStep
        rw [hlm]
      rw [hstep] at hrun
      obtain ⟨k, w', hk1, hk2, hw', hall, hstrict⟩ := ih (i + 1) j' g' hrun
      refine ⟨k + 1, w', by omega, by simpa using hk2, hw', ?_, ?_⟩
      · intro m h v hm hv
        rcases m with _ | m
        · simp only [List.getElem?_cons_zero, Option.some.injEq] at hm
          rw [← hm, hlm] at hv
          cases hv
        · exact hall m h v (by simpa using hm) hv
      · intro m hm h v hmh hv
        rcases m with _ | m
        · simp only [List.getElem?_cons_zero, Option.some.injEq] at hmh
          rw [← hmh, hlm] at hv
          cases hv
        · exact hstrict m (by omega) h v (by simpa using hmh) hv
    · have hstep : minStep li i f none = some (i, f) := by
        unfold minStep
        rw [hlm]
        rfl
      rw [hstep] at hrun
      obtain ⟨w', hw', hle, hall, hdisj⟩ := minWristGo_spec li rest (i + 1) i f lw hlm j' g' hrun
      rcases hdisj with ⟨hj, hg⟩ | ⟨k, hk1, hk2, hk3, hk4⟩
      · subst hg
        refine ⟨0, w', by omega, by simp, hw', ?_, ?_⟩
        · intro m h v hm hv
          rcases m with _ | m
          · simp only [List.getElem?_cons_zero, Option.some.injEq] at hm
            rw [← hm, hlm] at hv
            injection hv with hv
            rw [← hv]
            exact hle
          · exact hall m h v (by simpa using hm) hv
        · intro m hm
          exact absurd hm (Nat.not_lt_zero m)
      · refine ⟨k + 1, w', by omega, by simpa using hk2, hw', ?_, ?_⟩
        · intro m h v hm hv
          rcases m with _ | m
          · simp only [List.getElem?_cons_zero, Option.some.injEq] at hm
            rw [← hm, hlm] at hv
            injection hv with hv
            rw [← hv]
            exact le_of_lt hk3
          · exact hall m h v (by simpa using hm) hv
        · intro m hm h v hmh hv
          rcases m with _ | m
          · simp only [List.getElem?_cons_zero, Option.some.injEq] at hmh
            rw [← hmh, hlm] at hv
            injection hv with hv
            rw [← hv]
            exact hk3
          · exact hk4 m (by omega) h v (by simpa using hmh) hv

theorem trophyGo_spec (l : List LandmarkFrame) :
    ∀ (i j : Nat) (g : LandmarkFrame), trophyGo i l = some (j, g) →
      ∃ k, j = i + k ∧ l[k]? = some g ∧ trophyCond g ∧
        ∀ m, m < k → ∀ (h : LandmarkFrame), l[m]? = some h → ¬ trophyCond h := by
  induction l with
  | nil =>
    intro i j g h
    simp [trophyGo] at h
  | cons f rest ih =>
    intro i j g hrun
    simp only [trophyGo] at hrun
    by_cases hc : trophyCond f
    · rw [if_pos hc] at hrun
      simp only [Option.some.injEq, Prod.mk.injEq] at hrun
      obtain ⟨rfl, rfl⟩ := hrun
      refine ⟨0, by omega, by simp, hc, ?_⟩
      intro m hm
      exact absurd hm (Nat.not_lt_zero m)
    · rw [if_neg hc] at hrun
      obtain ⟨k, hk1, hk2, hk3, hk4⟩ := ih (i + 1) j g hrun
      refine ⟨k + 1, by omega, by simpa using hk2, hk3, ?_⟩
      intro m hm h hmh
      rcases m with _ | m
      · simp only [List.getElem?_cons_zero, Option.some.injEq] at hmh
        rw [← hmh]
        exact hc
      · exact hk4 m (by omega) h (by simpa using hmh)

theorem trophyGo_none (l : List LandmarkFrame) :
    ∀ (i : Nat), trophyGo i l = none →
      ∀ (m : Nat) (h : LandmarkFrame), l[m]? = some h → ¬ trophyCond h := by
  induction l with
  | nil =>
    intro i _ m h hm
    simp at hm
  | cons f rest ih =>
    intro i hrun m h hm
    simp only [trophyGo] at hrun
    by_cases hc : trophyCond f
    · rw [if_pos hc] at hrun
      cases hrun
    · rw [if_neg hc] at hrun
      rcases m with _ | m
      · simp only [List.getElem?_cons_zero, Option.some.injEq] at hm
        rw [← hm]
        exact hc
      · exact ih (i + 1) hrun m h (by simpa using hm)

theorem trophyCond_rWrist (f : LandmarkFrame) (h : trophyCond f) :
    (f.landmarks[RIGHT_WRIST]?).isSome := by
  rcases h3 : f.landmarks[RIGHT_WRIST]? with _ | rW
  · exfalso
    unfold trophyCond at h
    rcases h1 : f.landmarks[RIGHT_SHOULDER]? with _ | rS <;> rw [h1] at h <;>
      rcases h2 : f.landmarks[RIGHT_ELBOW]? with _ | rE <;> rw [h2] at h <;>
        rw [h3] at h <;> simp at h
  · rfl

theorem analyzeKinematics_long (poseData : List LandmarkFrame) (d : ℝ)
    (h10 : ¬ poseData.length < 10) :
    (analyzeKinematics poseData d).tossPeak = (tossBest poseData).map (fun p => p.2.time) ∧
    (analyzeKinematics poseData d).trophyPose =
      (trophyBest poseData).map (fun p => p.2.time) ∧
    (analyzeKinematics poseData d).contactPoint =
      (contactBest poseData).map (fun p => p.2.time) := by
  unfold analyzeKinematics
  rw [if_neg h10]
  exact ⟨rfl, rfl, rfl⟩

theorem trophyBest_getElem (poseData : List LandmarkFrame) (tj : Nat) (tg : LandmarkFrame)
    (htrop : trophyBest poseData = some (tj, tg)) :
    poseData[tj]? = some tg ∧ trophyCond tg := by
  rcases htoss : tossBest poseData with _ | ⟨ti, tf⟩
  · unfold trophyBest at htrop
    rw [htoss] at htrop
    cases htrop
  · have hTG : trophyGo ti (poseData.drop ti) = some (tj, tg) := by
      unfold trophyBest at htrop
      rw [htoss] at htrop
      exact htrop
    obtain ⟨k, hk1, hk2, hk3, -⟩ := trophyGo_spec (poseData.drop ti) ti tj tg hTG
    rw [List.getElem?_drop] at hk2
    rw [hk1]
    exact ⟨hk2, hk3⟩

theorem contactBest_isSome_of_trophy (poseData : List LandmarkFrame) (tj : Nat)
    (tg : LandmarkFrame) (htrop : trophyBest poseData = some (tj, tg)) :
    (contactBest poseData).isSome := by
  have hCB : contactBest poseData = minWristGo RIGHT_WRIST tj (poseData.drop tj) none := by
    unfold contactBest
    rw [htrop]
  obtain ⟨hj, hcond⟩ := trophyBest_getElem poseData tj tg htrop
  have hdrop0 : (poseData.drop tj)[0]? = some tg := by
    rw [List.getElem?_drop]
    simpa using hj
  rcases hdt : poseData.drop tj with _ | ⟨f0, rest⟩
  · rw [hdt] at hdrop0
    simp at hdrop0
  · rw [hdt] at hdrop0
    simp only [List.getElem?_cons_zero, Option.some.injEq] at hdrop0
    rw [hCB, hdt]
    simp only [minWristGo]
    apply minWristGo_isSome
    apply minStep_isSome_of_lm
    rw [hdrop0]
    exact trophyCond_rWrist tg hcond

/-! ## C7: first-match semantics of the trophy-pose pass -/

/-- C7: for a buffer of at least 10 frames with a toss peak found, the
trophy pose is the first frame, scanning forward from the toss-peak
index, satisfying the elbow-angle condition `trophyCond` (strictly
between 80° and 130° with the wrist above the elbow, frames with a
degenerate vector or missing landmarks skipped); it is absent when no
such frame exists or the toss peak is absent. -/
theorem trophyPose_first_match (poseData : List LandmarkFrame) (d : ℝ)
    (h10 : ¬ poseData.length < 10) :
    (tossBest poseData = none → (analyzeKinematics poseData d).trophyPose = none) ∧
    (∀ (ti : Nat) (tf : LandmarkFrame), tossBest poseData = some (ti, tf) →
      ((analyzeKinematics poseData d).trophyPose = none ∧
        ∀ (k : Nat) (g : LandmarkFrame), ti ≤ k → poseData[k]? = some g →
          ¬ trophyCond g) ∨
      (∃ (j : Nat) (g : LandmarkFrame),
        (analyzeKinematics poseData d).trophyPose = some g.time ∧
        trophyBest poseData = some (j, g) ∧ ti ≤ j ∧ poseData[j]? = some g ∧
        trophyCond g ∧
        ∀ (k : Nat) (g' : LandmarkFrame), ti ≤ k → k < j → poseData[k]? = some g' →
          ¬ trophyCond g')) := by
  obtain ⟨-, htr, -⟩ := analyzeKinematics_long poseData d h10
  constructor
  · intro hnone
    rw [htr]
    unfold trophyBest
    rw [hnone]
    rfl
  · intro ti tf htoss
    have hTB : trophyBest poseData = trophyGo ti (poseData.drop ti) := by
      unfold trophyBest
      rw [htoss]
    rcases hgo : trophyGo ti (poseData.drop ti) with _ | ⟨j, g⟩
    · left
      constructor
      · rw [htr, hTB, hgo]
        rfl
      · intro k g hk hkg
        refine trophyGo_none (poseData.drop ti) ti hgo (k - ti) g ?_
        rw [List.getElem?_drop, Nat.add_sub_cancel' hk]
        exact hkg
    · right
      obtain ⟨k, hk1, hk2, hk3, hk4⟩ := trophyGo_spec (poseData.drop ti) ti j g hgo
      rw [List.getElem?_drop] at hk2
      refine ⟨j, g, ?_, ?_, by omega, ?_, hk3, ?_⟩
      · rw [htr, hTB, hgo]
        rfl
      · rw [hTB, hgo]
      · rw [hk1]
        exact hk2
      · intro k' g' hk'1 hk'2 hk'g
        refine hk4 (k' - ti) (by omega) g' ?_
        rw [List.getElem?_drop, Nat.add_sub_cancel' hk'1]
        exact hk'g

/-- Witness for C7 at the concrete ten-frame buffer `cBuf`. -/
theorem trophyPose_first_match_witness :
    (¬ cBuf.length < 10) ∧
    ((tossBest cBuf = none → (analyzeKinematics cBuf 1).trophyPose = none) ∧
    (∀ (ti : Nat) (tf : LandmarkFrame), tossBest cBuf = some (ti, tf) →
      ((analyzeKinematics cBuf 1).trophyPose = none ∧
        ∀ (k : Nat) (g : LandmarkFrame), ti ≤ k → cBuf[k]? = some g →
          ¬ trophyCond g) ∨
      (∃ (j : Nat) (g : LandmarkFrame),
        (analyzeKinematics cBuf 1).trophyPose = some g.time ∧
        trophyBest cBuf = some (j, g) ∧ ti ≤ j ∧ cBuf[j]? = some g ∧
        trophyCond g ∧
        ∀ (k : Nat) (g' : LandmarkFrame), ti ≤ k → k < j → cBuf[k]? = some g' →
          ¬ trophyCond g'))) :=
  ⟨by norm_num [cBuf], trophyPose_first_match cBuf 1 (by norm_num [cBuf])⟩

/-! ## C8: monotone ordering of the three event indices -/

/-- C8: whenever all three of Toss Peak, Trophy Pose and Contact Point
are present in the extractor's result, the index of the toss-peak frame
is at most the index of the trophy-pose frame, which is at most the
index of the contact-point frame. -/
theorem keyMoments_index_monotone (poseData : List LandmarkFrame) (d : ℝ)
    (h1 : (analyzeKinematics poseData d).tossPeak.isSome)
    (h2 : (analyzeKinematics poseData d).trophyPose.isSome)
    (h3 : (analyzeKinematics poseData d).contactPoint.isSome) :
    ∃ (ti ci : Nat) (tf cg : LandmarkFrame) (tj : Nat) (tg : LandmarkFrame),
      tossBest poseData = some (ti, tf) ∧ trophyBest poseData = some (tj, tg) ∧
      contactBest poseData = some (ci, cg) ∧ ti ≤ tj ∧ tj ≤ ci := by
  by_cases h10 : poseData.length < 10
  · exfalso
    unfold analyzeKinematics at h1
    rw [if_pos h10] at h1
    simp at h1
  obtain ⟨ht, htr, hc⟩ := analyzeKinematics_long poseData d h10
  rw [ht] at h1
  rw [htr] at h2
  rw [hc] at h3
  rcases htoss : tossBest poseData with _ | ⟨ti, tf⟩
  · rw [htoss] at h1
    simp at h1
  rcases htrop : trophyBest poseData with _ | ⟨tj, tg⟩
  · rw [htrop] at h2
    simp at h2
  rcases hcont : contactBest poseData with _ | ⟨ci, cg⟩
  · rw [hcont] at h3
    simp at h3
  refine ⟨ti, ci, tf, cg, tj, tg, rfl, rfl, rfl, ?_, ?_⟩
  · have hTG : trophyGo ti (poseData.drop ti) = some (tj, tg) := by
      unfold trophyBest at htrop
      rw [htoss] at htrop
      exact htrop
    obtain ⟨k, hk1, -, -, -⟩ := trophyGo_spec (poseData.drop ti) ti tj tg hTG
    omega
  · have hCB : minWristGo RIGHT_WRIST tj (poseData.drop tj) none = some (ci, cg) := by
      unfold contactBest at hcont
      rw [htrop] at hcont
      exact hcont
    rcases minWristGo_index RIGHT_WRIST (poseData.drop tj) tj none ci cg hCB with habs | hle
    · cases habs
    · exact hle

/-! ## C10: a found trophy pose always yields a contact point -/

/-- C10: whenever the extractor returns a non-absent Trophy Pose it also
returns a non-absent Contact Point: the contact scan starts at the
trophy-pose frame itself, which necessarily carries a right-wrist
landmark, so the running minimum selects at least that frame. -/
theorem trophyPose_implies_contactPoint (poseData : List LandmarkFrame) (d : ℝ)
    (h : (analyzeKinematics poseData d).trophyPose.isSome) :
    (analyzeKinematics poseData d).contactPoint.isSome := by
  by_cases h10 : poseData.length < 10
  · exfalso
    unfold analyzeKinematics at h
    rw [if_pos h10] at h
    simp at h
  obtain ⟨-, htr, hc⟩ := analyzeKinematics_long poseData d h10
  rw [htr] at h
  rw [hc]
  rcases htrop : trophyBest poseData with _ | ⟨tj, tg⟩
  · rw [htrop] at h
    simp at h
  have := contactBest_isSome_of_trophy poseData tj tg htrop
  rcases hcont : contactBest poseData with _ | ⟨ci, cg⟩
  · rw [hcont] at this
    simp at this
  · rfl

/-! ## C1: tie-breaking of the contact-point pass -/

/-- C1 (amended): for every buffer of at least 10 frames in which a
trophy pose was found, the returned contact point is the time of the
frame, scanning forward from the trophy-pose index to the end of the
buffer, at which the right wrist attains its smallest vertical
coordinate, with ties resolved to the FIRST frame attaining that minimum
(the code's running comparison is strictly-less, not
new-minimum-or-equal). -/
theorem contactPoint_first_min (poseData : List LandmarkFrame) (d : ℝ)
    (h10 : ¬ poseData.length < 10) (tj : Nat) (tg : LandmarkFrame)
    (htrop : trophyBest poseData = some (tj, tg)) :
    ∃ (ci : Nat) (cg : LandmarkFrame) (w : Landmark),
      contactBest poseData = some (ci, cg) ∧
      (analyzeKinematics poseData d).contactPoint = some cg.time ∧
      tj ≤ ci ∧ poseData[ci]? = some cg ∧ cg.landmarks[RIGHT_WRIST]? = some w ∧
      (∀ (k : Nat) (h : LandmarkFrame) (v : Landmark), tj ≤ k →
        poseData[k]? = some h → h.landmarks[RIGHT_WRIST]? = some v → w.y ≤ v.y) ∧
      (∀ (k : Nat) (h : LandmarkFrame) (v : Landmark), tj ≤ k → k < ci →
        poseData[k]? = some h → h.landmarks[RIGHT_WRIST]? = some v → w.y < v.y) := by
  obtain ⟨-, -, hc⟩ := analyzeKinematics_long poseData d h10
  have hsome := contactBest_isSome_of_trophy poseData tj tg htrop
  rcases hcont : contactBest poseData with _ | ⟨ci, cg⟩
  · rw [hcont] at hsome
    simp at hsome
  have hCB : minWristGo RIGHT_WRIST tj (poseData.drop tj) none = some (ci, cg) := by
    unfold contactBest at hcont
    rw [htrop] at hcont
    exact hcont
  obtain ⟨k, w, hk1, hk2, hw, hall, hstrict⟩ :=
    minWristGo_none_spec RIGHT_WRIST (poseData.drop tj) tj ci cg hCB
  rw [List.getElem?_drop] at hk2
  refine ⟨ci, cg, w, rfl, ?_, by omega, ?_, hw, ?_, ?_⟩
  · rw [hc, hcont]
    rfl
  · rw [hk1]
    exact hk2
  · intro k' h v hk' hkg hv
    refine hall (k' - tj) h v ?_ hv
    rw [List.getElem?_drop, Nat.add_sub_cancel' hk']
    exact hkg
  · intro k' h v hk'1 hk'2 hkg hv
    refine hstrict (k' - tj) (by omega) h v ?_ hv
    rw [List.getElem?_drop, Nat.add_sub_cancel' hk'1]
    exact hkg

/-! ## Evaluation on the concrete buffer -/

theorem tFrame_lWrist (t a b : ℝ) :
    (tFrame t a b).landmarks[LEFT_WRIST]? = some { x := 1/5, y := a } := rfl

theorem tFrame_rWrist (t a b : ℝ) :
    (tFrame t a b).landmarks[RIGHT_WRIST]? = some { x := 1/2, y := b } := rfl

theorem tFrame_rShoulder (t a b : ℝ) :
    (tFrame t a b).landmarks[RIGHT_SHOULDER]? = some { x := 7/10, y := 1/2 } := rfl

theorem tFrame_rElbow (t a b : ℝ) :
    (tFrame t a b).landmarks[RIGHT_ELBOW]? = some { x := 1/2, y := 1/2 } := rfl

theorem tFrame_time (t a b : ℝ) : (tFrame t a b).time = t := rfl

theorem elbowAngleDeg_perp :
    elbowAngleDeg { x := 7/10, y := 1/2 } { x := 1/2, y := 1/2 } { x := 1/2, y := 3/10 } =
      90 := by
  unfold elbowAngleDeg
  norm_num
  field_simp [Real.pi_ne_zero]
  ring

theorem trophyCond_cBuf0 : trophyCond (tFrame 0 0 (3/10)) := by
  unfold trophyCond
  rw [tFrame_rShoulder, tFrame_rElbow, tFrame_rWrist]
  refine ⟨?_, ?_, ?_, ?_, by norm_num⟩
  · rw [Real.sqrt_ne_zero']
    norm_num
  · rw [Real.sqrt_ne_zero']
    norm_num
  · rw [elbowAngleDeg_perp]
    norm_num
  · rw [elbowAngleDeg_perp]
    norm_num

theorem tossBest_cBuf : tossBest cBuf = some (0, tFrame 0 0 (3/10)) := by
  unfold tossBest cBuf
  norm_num [minWristGo, minStep, accWristY, tFrame_lWrist]

theorem trophyBest_cBuf : trophyBest cBuf = some (0, tFrame 0 0 (3/10)) := by
  unfold trophyBest
  rw [tossBest_cBuf]
  show trophyGo 0 (cBuf.drop 0) = some (0, tFrame 0 0 (3/10))
  rw [List.drop_zero]
  unfold cBuf
  simp only [trophyGo]
  rw [if_pos trophyCond_cBuf0]

theorem contactBest_cBuf : contactBest cBuf = some (8, tFrame (8/10) (1/2) (1/10)) := by
  unfold contactBest
  rw [trophyBest_cBuf]
  show minWristGo RIGHT_WRIST 0 (cBuf.drop 0) none = some (8, tFrame (8/10) (1/2) (1/10))
  rw [List.drop_zero]
  unfold cBuf
  norm_num [minWristGo, minStep, accWristY, tFrame_rWrist]

theorem analyzeKinematics_cBuf (d : ℝ) :
    analyzeKinematics cBuf d =
      { serveStart := 0, tossPeak := some 0, trophyPose := some 0,
        contactPoint := some (8/10) } := by
  unfold analyzeKinematics
  rw [if_neg (by norm_num [cBuf] : ¬ (cBuf.length < 10))]
  rw [tossBest_cBuf, trophyBest_cBuf, contactBest_cBuf]
  norm_num [cBuf, tFrame_time, KeyMoments.mk.injEq]

/-- C1 counterexample: in `cBuf` the minimal right-wrist `y` (= 1/10) over
the contact scan is attained at frames 8 (time 8/10) and 9 (time 9/10);
the code returns the FIRST such frame's time 8/10, not the last frame's
9/10 as the claim's new-minimum-or-equal tie-break would require. -/
theorem contactPoint_tie_counterexample :
    (analyzeKinematics cBuf 1).contactPoint = some (8/10) ∧
    ((cBuf[8]?).bind fun f => (f.landmarks[RIGHT_WRIST]?).map fun l => l.y) =
      some (1/10) ∧
    ((cBuf[9]?).bind fun f => (f.landmarks[RIGHT_WRIST]?).map fun l => l.y) =
      some (1/10) ∧
    ((cBuf[9]?).map fun f => f.time) = some (9/10) ∧
    (8/10 : ℝ) ≠ 9/10 := by
  refine ⟨?_, ?_, ?_, ?_, by norm_num⟩
  · rw [analyzeKinematics_cBuf]
  · norm_num [cBuf, tFrame_rWrist]
  · norm_num [cBuf, tFrame_rWrist]
  · norm_num [cBuf, tFrame_time]

/-- Witness for the amended C1 at the concrete buffer `cBuf`. -/
theorem contactPoint_first_min_witness :
    ((¬ cBuf.length < 10) ∧ trophyBest cBuf = some (0, tFrame 0 0 (3/10))) ∧
    (∃ (ci : Nat) (cg : LandmarkFrame) (w : Landmark),
      contactBest cBuf = some (ci, cg) ∧
      (analyzeKinematics cBuf 1).contactPoint = some cg.time ∧
      0 ≤ ci ∧ cBuf[ci]? = some cg ∧ cg.landmarks[RIGHT_WRIST]? = some w ∧
      (∀ (k : Nat) (h : LandmarkFrame) (v : Landmark), 0 ≤ k →
        cBuf[k]? = some h → h.landmarks[RIGHT_WRIST]? = some v → w.y ≤ v.y) ∧
      (∀ (k : Nat) (h : LandmarkFrame) (v : Landmark), 0 ≤ k → k < ci →
        cBuf[k]? = some h → h.landmarks[RIGHT_WRIST]? = some v → w.y < v.y)) :=
  ⟨⟨by norm_num [cBuf], trophyBest_cBuf⟩,
   contactPoint_first_min cBuf 1 (by norm_num [cBuf]) 0 (tFrame 0 0 (3/10)) trophyBest_cBuf⟩

/-- Witness for C8 at the concrete buffer `cBuf`. -/
theorem keyMoments_index_monotone_witness :
    ((analyzeKinematics cBuf 1).tossPeak.isSome ∧
     (analyzeKinematics cBuf 1).trophyPose.isSome ∧
     (analyzeKinematics cBuf 1).contactPoint.isSome) ∧
    (∃ (ti ci : Nat) (tf cg : LandmarkFrame) (tj : Nat) (tg : LandmarkFrame),
      tossBest cBuf = some (ti, tf) ∧ trophyBest cBuf = some (tj, tg) ∧
      contactBest cBuf = some (ci, cg) ∧ ti ≤ tj ∧ tj ≤ ci) :=
  ⟨⟨by rw [analyzeKinematics_cBuf]; rfl, by rw [analyzeKinematics_cBuf]; rfl,
    by rw [analyzeKinematics_cBuf]; rfl⟩,
   keyMoments_index_monotone cBuf 1 (by rw [analyzeKinematics_cBuf]; rfl)
     (by rw [analyzeKinematics_cBuf]; rfl) (by rw [analyzeKinematics_cBuf]; rfl)⟩

/-- Witness for C10 at the concrete buffer `cBuf`. -/
theorem trophyPose_implies_contactPoint_witness :
    (analyzeKinematics cBuf 1).trophyPose.isSome ∧
    (analyzeKinematics cBuf 1).contactPoint.isSome :=
  ⟨by rw [analyzeKinematics_cBuf]; rfl,
   trophyPose_implies_contactPoint cBuf 1 (by rw [analyzeKinematics_cBuf]; rfl)⟩

/-! ## Detector lemmas -/

theorem reportState_fst_lastReported (s : DetectorState) (ns : SignalState) :
    (reportState s ns).1.lastReported = ns := by
  unfold reportState
  by_cases h : ns = s.lastReported
  · simp [h]
  · simp [h]

theorem reportState_fst_count (s : DetectorState) (ns : SignalState) :
    (reportState s ns).1.stillFrameCount = s.stillFrameCount := by
  unfold reportState
  by_cases h : ns = s.lastReported
  · simp [h]
  · simp [h]

theorem reportState_fst_pos (s : DetectorState) (ns : SignalState) :
    (reportState s ns).1.lastWristPos = s.lastWristPos := by
  unfold reportState
  by_cases h : ns = s.lastReported
  · simp [h]
  · simp [h]

theorem reportState_snd_sub (s : DetectorState) (ns : SignalState) :
    (reportState s ns).2 = [] ∨ (reportState s ns).2 = [ns] := by
  unfold reportState
  by_cases h : ns = s.lastReported
  · simp [h]
  · simp [h]

theorem reportState_snd_eq (s : DetectorState) (ns : SignalState) :
    (reportState s ns).2 = if ns = s.lastReported then [] else [ns] := by
  unfold reportState
  by_cases h : ns = s.lastReported
  · simp [h]
  · simp [h]

theorem detectLoopTick_idle (s : DetectorState) :
    detectLoopTick s idleTick =
      ({ lastWristPos := none, stillFrameCount := 0, lastReported := SignalState.idle },
       if s.lastReported = SignalState.idle then [] else [SignalState.idle]) := by
  unfold detectLoopTick idleTick reportState
  by_cases h : s.lastReported = SignalState.idle
  · simp [h, STILL_FRAMES_REQUIRED]
  · simp [h, Ne.symm h, STILL_FRAMES_REQUIRED]

theorem detectRun_nil (s : DetectorState) : detectRun s [] = (s, []) := rfl

theorem detectRun_cons (s : DetectorState) (det : Option (List Landmark))
    (rest : List (Option (List Landmark))) :
    detectRun s (det :: rest) =
      if STILL_FRAMES_REQUIRED ≤ (detectLoopTick s det).1.stillFrameCount then
        detectLoopTick s det
      else
        ((detectRun (detectLoopTick s det).1 rest).1,
         (detectLoopTick s det).2 ++ (detectRun (detectLoopTick s det).1 rest).2) := rfl

theorem detectRun_idle_replicate (n : Nat) (s : DetectorState) :
    detectRun s (List.replicate (n + 1) idleTick) =
      ({ lastWristPos := none, stillFrameCount := 0, lastReported := SignalState.idle },
       if s.lastReported = SignalState.idle then [] else [SignalState.idle]) := by
  induction n generalizing s with
  | zero =>
    rw [List.replicate_succ, detectRun_cons, detectLoopTick_idle]
    norm_num [STILL_FRAMES_REQUIRED, detectRun_nil]
  | succ n ih =>
    rw [List.replicate_succ, detectRun_cons, detectLoopTick_idle, ih]
    norm_num [STILL_FRAMES_REQUIRED]

/-! ## C2: edge-triggered state-change callback -/

/-- C2 counterexample: a fresh detector fed 200 consecutive idle ticks
fires the callback ZERO times, not exactly once, because
`lastReportedState` initializes to `'idle'` and `reportState('idle')`
never observes a change. -/
theorem idle_run_callbacks_counterexample :
    (detectRun initDetector (List.replicate 200 idleTick)).2 = [] ∧
    (detectRun initDetector (List.replicate 200 idleTick)).2.length ≠ 1 := by
  have h := detectRun_idle_replicate 199 initDetector
  simp only [initDetector] at h ⊢
  norm_num at h
  rw [h]
  simp

/-- C2 (amended): the callback is edge-triggered — `reportState` fires
exactly when the newly computed state differs from the previously
reported one — and consequently a run of 200 consecutive idle ticks
produces exactly one idle callback when the state reported before the
run differs from idle, and zero callbacks when it is already idle (in
particular on a fresh detector, whose `lastReportedState` starts as
idle). -/
theorem edge_triggered_idle_run :
    (∀ (s : DetectorState) (ns : SignalState),
      (reportState s ns).2 = if ns = s.lastReported then [] else [ns]) ∧
    (∀ s : DetectorState,
      (detectRun s (List.replicate 200 idleTick)).2 =
        if s.lastReported = SignalState.idle then [] else [SignalState.idle]) := by
  refine ⟨reportState_snd_eq, ?_⟩
  intro s
  have h := detectRun_idle_replicate 199 s
  norm_num at h
  rw [h]

theorem append_cons_split {α : Type} {a : α} {l1 l2 pre post : List α}
    (ha : a ∉ l1) (heq : l1 ++ l2 = pre ++ a :: post) :
    l2 = pre.drop l1.length ++ a :: post := by
  have hlen : l1.length ≤ pre.length := by
    by_contra hlt
    push_neg at hlt
    have h1 : (l1 ++ l2)[pre.length]? = some a := by
      rw [heq, List.getElem?_append_right (le_refl pre.length), Nat.sub_self]
      exact List.getElem?_cons_zero
    rw [List.getElem?_append_left hlt] at h1
    exact ha (List.getElem?_mem h1)
  have hdrop := congrArg (List.drop l1.length) heq
  rw [List.drop_left] at hdrop
  rw [hdrop, List.drop_append_of_le_length hlen]

theorem lockedOnlyLast_append_singleton (pre : List SignalState)
    (h : SignalState.locked ∉ pre) :
    lockedOnlyLast (pre ++ [SignalState.locked]) := by
  intro pre' post heq
  have hsplit := append_cons_split h heq
  have hlen := congrArg List.length hsplit
  simp at hlen
  have hp : post.length = 0 := by omega
  exact List.length_eq_zero.mp hp

theorem detectLoopTick_shape (s : DetectorState) (det : Option (List Landmark)) :
    ∃ (s2 : DetectorState) (e : List SignalState),
      (e = [] ∨ e = [SignalState.detecting] ∨ e = [SignalState.idle]) ∧
      s2.lastReported ≠ SignalState.locked ∧
      detectLoopTick s det =
        (if STILL_FRAMES_REQUIRED ≤ s2.stillFrameCount then
          ((reportState s2 SignalState.locked).1, e ++ (reportState s2 SignalState.locked).2)
        else (s2, e)) := by
  rcases hdet : det.bind raisedWristOf with _ | w
  · refine ⟨{ (reportState s SignalState.idle).1 with
        stillFrameCount := 0, lastWristPos := none },
      (reportState s SignalState.idle).2, ?_, ?_, ?_⟩
    · rcases reportState_snd_sub s SignalState.idle with h | h
      · exact Or.inl h
      · exact Or.inr (Or.inr h)
    · show (reportState s SignalState.idle).1.lastReported ≠ SignalState.locked
      rw [reportState_fst_lastReported]
      simp
    · simp only [detectLoopTick, hdet]
  · refine ⟨(match (reportState s SignalState.detecting).1.lastWristPos with
      | some lastPos =>
        if Real.sqrt ((w.x - lastPos.1) ^ 2 + (w.y - lastPos.2) ^ 2) < STILLNESS_THRESHOLD then
          { (reportState s SignalState.detecting).1 with
              stillFrameCount := (reportState s SignalState.detecting).1.stillFrameCount + 1 }
        else
          { (reportState s SignalState.detecting).1 with
              stillFrameCount := 1, lastWristPos := some (w.x, w.y) }
      | none =>
        { (reportState s SignalState.detecting).1 with
            stillFrameCount := 1, lastWristPos := some (w.x, w.y) }),
      (reportState s SignalState.detecting).2, ?_, ?_, ?_⟩
    · rcases reportState_snd_sub s SignalState.detecting with h | h
      · exact Or.inl h
      · exact Or.inr (Or.inl h)
    · rcases (reportState s SignalState.detecting).1.lastWristPos with _ | lp
      · show (reportState s SignalState.detecting).1.lastReported ≠ SignalState.locked
        rw [reportState_fst_lastReported]
        simp
      · by_cases hdist :
          Real.sqrt ((w.x - lp.1) ^ 2 + (w.y - lp.2) ^ 2) < STILLNESS_THRESHOLD
        · show (if Real.sqrt ((w.x - lp.1) ^ 2 + (w.y - lp.2) ^ 2) < STILLNESS_THRESHOLD then
              { (reportState s SignalState.detecting).1 with
                  stillFrameCount := (reportState s SignalState.detecting).1.stillFrameCount + 1 }
            else
              { (reportState s SignalState.detecting).1 with
                  stillFrameCount := 1,
                  lastWristPos := some (w.x, w.y) }).lastReported ≠ SignalState.locked
          rw [if_pos hdist]
          show (reportState s SignalState.detecting).1.lastReported ≠ SignalState.locked
          rw [reportState_fst_lastReported]
          simp
        · show (if Real.sqrt ((w.x - lp.1) ^ 2 + (w.y - lp.2) ^ 2) < STILLNESS_THRESHOLD then
              { (reportState s SignalState.detecting).1 with
                  stillFrameCount := (reportState s SignalState.detecting).1.stillFrameCount + 1 }
            else
              { (reportState s SignalState.detecting).1 with
                  stillFrameCount := 1,
                  lastWristPos := some (w.x, w.y) }).lastReported ≠ SignalState.locked
          rw [if_neg hdist]
          show (reportState s SignalState.detecting).1.lastReported ≠ SignalState.locked
          rw [reportState_fst_lastReported]
          simp
    · simp only [detectLoopTick, hdet]

theorem detectLoopTick_branches (s : DetectorState) (det : Option (List Landmark)) :
    (STILL_FRAMES_REQUIRED ≤ (detectLoopTick s det).1.stillFrameCount →
      ∃ pre, (detectLoopTick s det).2 = pre ++ [SignalState.locked] ∧
        SignalState.locked ∉ pre) ∧
    (¬ STILL_FRAMES_REQUIRED ≤ (detectLoopTick s det).1.stillFrameCount →
      SignalState.locked ∉ (detectLoopTick s det).2) := by
  obtain ⟨s2, e, he, hne, heq⟩ := detectLoopTick_shape s det
  have helocked : SignalState.locked ∉ e := by
    rcases he with h | h | h <;> rw [h] <;> simp
  by_cases hstop : STILL_FRAMES_REQUIRED ≤ s2.stillFrameCount
  · rw [heq, if_pos hstop]
    constructor
    · intro _
      refine ⟨e, ?_, helocked⟩
      have hr2 : (reportState s2 SignalState.locked).2 = [SignalState.locked] := by
        rw [reportState_snd_eq, if_neg]
        intro hcon
        exact hne hcon.symm
      show e ++ (reportState s2 SignalState.locked).2 = e ++ [SignalState.locked]
      rw [hr2]
    · intro hc
      exfalso
      apply hc
      show STILL_FRAMES_REQUIRED ≤ (reportState s2 SignalState.locked).1.stillFrameCount
      rw [reportState_fst_count]
      exact hstop
  · rw [heq, if_neg hstop]
    constructor
    · intro hc
      exact absurd hc hstop
    · intro _
      exact helocked

theorem detectRun_locked_inv (ticks : List (Option (List Landmark))) :
    ∀ s : DetectorState,
      ((detectRun s ticks).2.count SignalState.locked ≤ 1) ∧
      lockedOnlyLast (detectRun s ticks).2 := by
  induction ticks with
  | nil =>
    intro s
    constructor
    · simp [detectRun_nil]
    · intro pre post heq
      rw [detectRun_nil] at heq
      simp at heq
  | cons det rest ih =>
    intro s
    rw [detectRun_cons]
    by_cases hstop : STILL_FRAMES_REQUIRED ≤ (detectLoopTick s det).1.stillFrameCount
    · rw [if_pos hstop]
      obtain ⟨pre, hpre, hnot⟩ := (detectLoopTick_branches s det).1 hstop
      rw [hpre]
      constructor
      · rw [List.count_append, List.count_eq_zero.mpr hnot]
        simp
      · exact lockedOnlyLast_append_singleton pre hnot
    · rw [if_neg hstop]
      have hnot := (detectLoopTick_branches s det).2 hstop
      obtain ⟨ihc, ihl⟩ := ih (detectLoopTick s det).1
      constructor
      · show ((detectLoopTick s det).2 ++
          (detectRun (detectLoopTick s det).1 rest).2).count SignalState.locked ≤ 1
        rw [List.count_append, List.count_eq_zero.mpr hnot]
        simpa using ihc
      · intro pre post heq
        exact ihl _ _ (append_cons_split hnot heq)

/-! ## C5: `locked` is reported at most once per activation -/

/-- C5: in every run of the detector from its initial state, `locked`
appears at most once in the callback trace, and only as the final
callback: once the stillness counter reaches 120 and `locked` is
reported, the loop returns and no further tick is processed or state
change emitted until the detector is restarted. -/
theorem locked_reported_at_most_once (ticks : List (Option (List Landmark))) :
    ((detectRun initDetector ticks).2.count SignalState.locked ≤ 1) ∧
    lockedOnlyLast (detectRun initDetector ticks).2 :=
  detectRun_locked_inv ticks initDetector

/-! ## Raised-tick lemmas for the stillness counter -/

theorem raisedTick_raised (x y : ℝ) :
    (raisedTick x y).bind raisedWristOf = some { x := x, y := y } := by
  norm_num [raisedTick, raisedWristOf, WRIST_L, SHOULDER_L]

theorem detectLoopTick_first_raised (x y : ℝ) (s : DetectorState)
    (hpos : s.lastWristPos = none) :
    detectLoopTick s (raisedTick x y) =
      ({ lastWristPos := some (x, y), stillFrameCount := 1,
         lastReported := SignalState.detecting },
       if SignalState.detecting = s.lastReported then [] else [SignalState.detecting]) := by
  simp only [detectLoopTick, raisedTick_raised]
  rw [reportState_fst_pos, hpos]
  simp only [reportState_fst_lastReported, reportState_snd_eq]
  norm_num [STILL_FRAMES_REQUIRED]

theorem detectLoopTick_stationary (p q : ℝ) (c : Nat)
    (hc : c + 1 < STILL_FRAMES_REQUIRED) :
    detectLoopTick
        { lastWristPos := some (p, q), stillFrameCount := c,
          lastReported := SignalState.detecting } (raisedTick p q) =
      ({ lastWristPos := some (p, q), stillFrameCount := c + 1,
         lastReported := SignalState.detecting }, []) := by
  simp only [detectLoopTick, raisedTick_raised, reportState]
  norm_num [STILLNESS_THRESHOLD, Real.sqrt_zero]
  intro h
  exact absurd h (by omega)

theorem detectLoopTick_lock (p q : ℝ) (c : Nat)
    (hc : STILL_FRAMES_REQUIRED ≤ c + 1) :
    detectLoopTick
        { lastWristPos := some (p, q), stillFrameCount := c,
          lastReported := SignalState.detecting } (raisedTick p q) =
      ({ lastWristPos := some (p, q), stillFrameCount := c + 1,
         lastReported := SignalState.locked }, [SignalState.locked]) := by
  simp only [detectLoopTick, raisedTick_raised, reportState]
  norm_num [STILLNESS_THRESHOLD, Real.sqrt_zero]
  rw [if_pos hc]
  simp

theorem detectLoopTick_reset (x' y' : ℝ) (s : DetectorState) (lp : ℝ × ℝ)
    (hpos : s.lastWristPos = some lp)
    (hmove : STILLNESS_THRESHOLD ≤ Real.sqrt ((x' - lp.1) ^ 2 + (y' - lp.2) ^ 2)) :
    detectLoopTick s (raisedTick x' y') =
      ({ lastWristPos := some (x', y'), stillFrameCount := 1,
         lastReported := SignalState.detecting },
       if SignalState.detecting = s.lastReported then [] else [SignalState.detecting]) := by
  simp only [detectLoopTick, raisedTick_raised]
  rw [reportState_fst_pos, hpos]
  simp only [reportState_fst_lastReported, reportState_snd_eq]
  rw [if_neg (not_lt.mpr hmove)]
  norm_num [STILL_FRAMES_REQUIRED]

theorem detectRun_stationary (p q : ℝ) (j : Nat) :
    ∀ (c : Nat), 1 ≤ c → c + j < STILL_FRAMES_REQUIRED →
      ∀ rest, detectRun
          { lastWristPos := some (p, q), stillFrameCount := c,
            lastReported := SignalState.detecting }
          (List.replicate j (raisedTick p q) ++ rest) =
        detectRun
          { lastWristPos := some (p, q), stillFrameCount := c + j,
            lastReported := SignalState.detecting } rest := by
  induction j with
  | zero =>
    intro c h1 h2 rest
    simp
  | succ j ih =>
    intro c h1 h2 rest
    simp only [STILL_FRAMES_REQUIRED] at h2
    rw [List.replicate_succ, List.cons_append, detectRun_cons,
        detectLoopTick_stationary p q c (by simp only [STILL_FRAMES_REQUIRED]; omega)]
    norm_num [STILL_FRAMES_REQUIRED]
    split
    · rename_i hcon
      exact absurd hcon (by omega)
    · rw [show c + (j + 1) = c + 1 + j from by omega,
          ih (c + 1) (by omega) (by simp only [STILL_FRAMES_REQUIRED]; omega) rest]

theorem detectRun_stationary_nil (p q : ℝ) (j c : Nat) (h1 : 1 ≤ c)
    (h2 : c + j < STILL_FRAMES_REQUIRED) :
    detectRun
        { lastWristPos := some (p, q), stillFrameCount := c,
          lastReported := SignalState.detecting }
        (List.replicate j (raisedTick p q)) =
      ({ lastWristPos := some (p, q), stillFrameCount := c + j,
         lastReported := SignalState.detecting }, []) := by
  have h := detectRun_stationary p q j c h1 h2 []
  rw [List.append_nil] at h
  rw [h, detectRun_nil]

theorem detectRun_c4_run (x y x' y' : ℝ)
    (hmove : STILLNESS_THRESHOLD ≤ Real.sqrt ((x' - x) ^ 2 + (y' - y) ^ 2))
    (k : Nat) (hk : k + 1 < STILL_FRAMES_REQUIRED) :
    detectRun initDetector
        (List.replicate 119 (raisedTick x y) ++
          raisedTick x' y' :: List.replicate k (raisedTick x' y')) =
      ({ lastWristPos := some (x', y'), stillFrameCount := 1 + k,
         lastReported := SignalState.detecting }, [SignalState.detecting]) := by
  rw [show List.replicate 119 (raisedTick x y) =
        raisedTick x y :: List.replicate 118 (raisedTick x y) from rfl,
      List.cons_append, detectRun_cons,
      detectLoopTick_first_raised x y initDetector rfl]
  rw [if_neg (by norm_num [STILL_FRAMES_REQUIRED, initDetector])]
  rw [show (if SignalState.detecting = initDetector.lastReported then ([] : List SignalState)
        else [SignalState.detecting]) = [SignalState.detecting] from by
      simp [initDetector]]
  rw [detectRun_stationary x y 118 1 (by omega)
        (by simp only [STILL_FRAMES_REQUIRED]; omega)]
  rw [detectRun_cons,
      detectLoopTick_reset x' y' _ (x, y) rfl (by simpa using hmove)]
  rw [if_neg (by norm_num [STILL_FRAMES_REQUIRED])]
  rw [show (if SignalState.detecting =
        ({ lastWristPos := some (x, y), stillFrameCount := 1 + 118,
           lastReported := SignalState.detecting } : DetectorState).lastReported
        then ([] : List SignalState) else [SignalState.detecting]) = [] from by simp]
  rw [detectRun_stationary_nil x' y' k 1 (by omega)
        (by simp only [STILL_FRAMES_REQUIRED] at hk ⊢; omega)]
  simp

theorem detectRun_c4_lock (x y x' y' : ℝ)
    (hmove : STILLNESS_THRESHOLD ≤ Real.sqrt ((x' - x) ^ 2 + (y' - y) ^ 2)) :
    detectRun initDetector
        (List.replicate 119 (raisedTick x y) ++
          raisedTick x' y' :: List.replicate 119 (raisedTick x' y')) =
      ({ lastWristPos := some (x', y'), stillFrameCount := 120,
         lastReported := SignalState.locked },
       [SignalState.detecting, SignalState.locked]) := by
  rw [show List.replicate 119 (raisedTick x y) =
        raisedTick x y :: List.replicate 118 (raisedTick x y) from rfl,
      List.cons_append, detectRun_cons,
      detectLoopTick_first_raised x y initDetector rfl]
  rw [if_neg (by norm_num [STILL_FRAMES_REQUIRED, initDetector])]
  rw [show (if SignalState.detecting = initDetector.lastReported then ([] : List SignalState)
        else [SignalState.detecting]) = [SignalState.detecting] from by
      simp [initDetector]]
  rw [detectRun_stationary x y 118 1 (by omega)
        (by simp only [STILL_FRAMES_REQUIRED]; omega)]
  rw [detectRun_cons,
      detectLoopTick_reset x' y' _ (x, y) rfl (by simpa using hmove)]
  rw [if_neg (by norm_num [STILL_FRAMES_REQUIRED])]
  rw [show (if SignalState.detecting =
        ({ lastWristPos := some (x, y), stillFrameCount := 1 + 118,
           lastReported := SignalState.detecting } : DetectorState).lastReported
        then ([] : List SignalState) else [SignalState.detecting]) = [] from by simp]
  rw [show List.replicate 119 (raisedTick x' y') =
        List.replicate 118 (raisedTick x' y') ++ [raisedTick x' y'] from by
      rw [show (119 : Nat) = 118 + 1 from rfl, List.replicate_succ']]
  rw [detectRun_stationary x' y' 118 1 (by omega)
        (by simp only [STILL_FRAMES_REQUIRED]; omega)]
  rw [detectRun_cons,
      detectLoopTick_lock x' y' (1 + 118) (by simp only [STILL_FRAMES_REQUIRED]; omega)]
  rw [if_pos (by norm_num [STILL_FRAMES_REQUIRED])]
  simp

/-! ## C4: moving beyond the stillness threshold resets the counter -/

/-- C4: a raised tick whose wrist lies at Euclidean distance ≥ 0.02 from
the remembered position resets the stillness counter to 1 and remembers
the new position; consequently 119 raised stationary ticks followed by
one moved tick never reach `locked` (the counter is back at 1 and only
`detecting` was reported — the `k = 0` instance of the second conjunct),
any `k` further stationary ticks with `k + 1 < 120` still do not lock,
and exactly 119 further stationary ticks (120 counting the moved tick's
reset to 1) bring the counter to 120 and report `locked`. -/
theorem stillness_reset_requires_full_run (x y x' y' : ℝ)
    (hmove : STILLNESS_THRESHOLD ≤ Real.sqrt ((x' - x) ^ 2 + (y' - y) ^ 2)) :
    (∀ (s : DetectorState) (lp : ℝ × ℝ), s.lastWristPos = some lp →
      STILLNESS_THRESHOLD ≤ Real.sqrt ((x' - lp.1) ^ 2 + (y' - lp.2) ^ 2) →
      (detectLoopTick s (raisedTick x' y')).1.stillFrameCount = 1 ∧
      (detectLoopTick s (raisedTick x' y')).1.lastWristPos = some (x', y')) ∧
    (∀ k, k + 1 < STILL_FRAMES_REQUIRED →
      detectRun initDetector
          (List.replicate 119 (raisedTick x y) ++
            raisedTick x' y' :: List.replicate k (raisedTick x' y')) =
        ({ lastWristPos := some (x', y'), stillFrameCount := 1 + k,
           lastReported := SignalState.detecting }, [SignalState.detecting])) ∧
    detectRun initDetector
        (List.replicate 119 (raisedTick x y) ++
          raisedTick x' y' :: List.replicate 119 (raisedTick x' y')) =
      ({ lastWristPos := some (x', y'), stillFrameCount := 120,
         lastReported := SignalState.locked },
       [SignalState.detecting, SignalState.locked]) := by
  refine ⟨?_, fun k hk => detectRun_c4_run x y x' y' hmove k hk,
    detectRun_c4_lock x y x' y' hmove⟩
  intro s lp hpos hm
  rw [detectLoopTick_reset x' y' s lp hpos hm]
  exact ⟨rfl, rfl⟩

/-- Witness for C4 with stationary position `(0,0)` and moved position
`(1,0)` (distance 1 ≥ 0.02). -/
theorem stillness_reset_requires_full_run_witness :
    STILLNESS_THRESHOLD ≤ Real.sqrt (((1:ℝ) - 0) ^ 2 + ((0:ℝ) - 0) ^ 2) ∧
    ((∀ (s : DetectorState) (lp : ℝ × ℝ), s.lastWristPos = some lp →
      STILLNESS_THRESHOLD ≤ Real.sqrt (((1:ℝ) - lp.1) ^ 2 + ((0:ℝ) - lp.2) ^ 2) →
      (detectLoopTick s (raisedTick 1 0)).1.stillFrameCount = 1 ∧
      (detectLoopTick s (raisedTick 1 0)).1.lastWristPos = some (1, 0)) ∧
    (∀ k, k + 1 < STILL_FRAMES_REQUIRED →
      detectRun initDetector
          (List.replicate 119 (raisedTick 0 0) ++
            raisedTick 1 0 :: List.replicate k (raisedTick 1 0)) =
        ({ lastWristPos := some (1, 0), stillFrameCount := 1 + k,
           lastReported := SignalState.detecting }, [SignalState.detecting])) ∧
    detectRun initDetector
        (List.replicate 119 (raisedTick 0 0) ++
          raisedTick 1 0 :: List.replicate 119 (raisedTick 1 0)) =
      ({ lastWristPos := some (1, 0), stillFrameCount := 120,
         lastReported := SignalState.locked },
       [SignalState.detecting, SignalState.locked])) :=
  ⟨by norm_num [STILLNESS_THRESHOLD, Real.sqrt_one],
   stillness_reset_requires_full_run 0 0 1 0
     (by norm_num [STILLNESS_THRESHOLD, Real.sqrt_one])⟩

/-! ## C3: progress values of the frame-collection loop -/

theorem collectRun_nil (d : ℝ) (s : CollectState) :
    collectRun d s [] = (s, [], false) := rfl

theorem collectRun_cons (d : ℝ) (s : CollectState) (t : VTick) (rest : List VTick) :
    collectRun d s (t :: rest) =
      if (processFrameTick d s t).2.2 then processFrameTick d s t
      else ((collectRun d (processFrameTick d s t).1 rest).1,
        (processFrameTick d s t).2.1 ++ (collectRun d (processFrameTick d s t).1 rest).2.1,
        (collectRun d (processFrameTick d s t).1 rest).2.2) := rfl

theorem processFrameTick_finished (d : ℝ) (s : CollectState) :
    processFrameTick d s VTick.finished = (s, [100], true) := rfl

theorem collectRun_progress (duration : ℝ) (hd : 0 < duration) (ticks : List VTick) :
    ∀ s : CollectState,
      (∀ (t : ℝ) (det : Option (List Landmark)), VTick.sample t det ∈ ticks →
        0 ≤ t ∧ t ≤ duration) →
      (∀ p ∈ (collectRun duration s ticks).2.1, 0 ≤ p ∧ p ≤ 100) ∧
      ((collectRun duration s ticks).2.2 = true →
        (collectRun duration s ticks).2.1.getLast? = some 100) := by
  induction ticks with
  | nil =>
    intro s _
    constructor
    · intro p hp
      simp [collectRun_nil] at hp
    · intro h
      simp [collectRun_nil] at h
  | cons t rest ih =>
    intro s hb
    rcases t with _ | ⟨ct, det⟩
    · rw [collectRun_cons, processFrameTick_finished]
      norm_num
    · have hbrest : ∀ (t : ℝ) (det : Option (List Landmark)), VTick.sample t det ∈ rest →
          0 ≤ t ∧ t ≤ duration := by
        intro t det hm
        exact hb t det (List.mem_cons_of_mem _ hm)
      have hct : 0 ≤ ct ∧ ct ≤ duration := hb ct det (List.mem_cons_self _ _)
      rw [collectRun_cons]
      by_cases hlt : s.lastTime < ct
      · rw [show processFrameTick duration s (VTick.sample ct det) =
            ({ lastTime := ct, poseData := s.poseData ++
                (match det with
                 | some landmarks => [{ time := ct, landmarks := landmarks }]
                 | none => []) },
             [ct / duration * 100], false) from by
          simp only [processFrameTick]
          rw [if_pos hlt]
          rcases det with _ | lms <;> rfl]
        obtain ⟨ihb, ihl⟩ := ih _ hbrest
        have hv0 : 0 ≤ ct / duration * 100 :=
          mul_nonneg (div_nonneg hct.1 hd.le) (by norm_num)
        have hv1 : ct / duration * 100 ≤ 100 := by
          have h1 : ct / duration ≤ 1 := (div_le_one hd).mpr hct.2
          nlinarith
        constructor
        · intro p hp
          simp only [Bool.false_eq_true, if_false, List.singleton_append,
            List.mem_cons] at hp
          rcases hp with rfl | hp
          · exact ⟨hv0, hv1⟩
          · exact ihb p hp
        · intro hfin
          simp only [Bool.false_eq_true, if_false] at hfin ⊢
          have hlast := ihl hfin
          rw [List.getLast?_append_of_ne_nil]
          · exact hlast
          · intro hnil
            rw [hnil] at hlast
            simp at hlast
      · rw [show processFrameTick duration s (VTick.sample ct det) = (s, [], false) from by
          simp only [processFrameTick]
          rw [if_neg hlt]]
        obtain ⟨ihb, ihl⟩ := ih s hbrest
        constructor
        · intro p hp
          simp only [Bool.false_eq_true, if_false, List.nil_append] at hp
          exact ihb p hp
        · intro hfin
          simp only [Bool.false_eq_true, if_false, List.nil_append] at hfin ⊢
          exact ihl hfin

/-- C3 counterexample: the loop performs no clamping — a sample whose
`currentTime` (2) exceeds the duration (1) makes the loop emit progress
`(2 / 1) * 100 = 200`, which lies outside `[0, 100]`. -/
theorem progress_unclamped_counterexample :
    (collectRun 1 initCollect [VTick.sample 2 none]).2.1 = [200] ∧
    ¬ ((200 : ℝ) ≤ 100) := by
  constructor
  · rw [collectRun_cons]
    rw [show processFrameTick 1 initCollect (VTick.sample 2 none) =
        ({ lastTime := 2, poseData := [] }, [200], false) from by
      simp only [processFrameTick, initCollect]
      norm_num]
    simp [collectRun_nil]
  · norm_num

/-- C3 (amended): the loop applies no clamping — progress is exactly
`(currentTime / duration) * 100` — but whenever the duration is positive
and every sampled `currentTime` lies in `[0, duration]` (as the video
element guarantees), every emitted progress value lies in `[0, 100]`;
and when playback completes the final emitted progress is exactly 100,
even if the final frame yields no detection. -/
theorem progress_bounds_and_completion (duration : ℝ) (ticks : List VTick)
    (hd : 0 < duration)
    (hb : ∀ (t : ℝ) (det : Option (List Landmark)), VTick.sample t det ∈ ticks →
      0 ≤ t ∧ t ≤ duration) :
    (∀ p ∈ (collectRun duration initCollect ticks).2.1, 0 ≤ p ∧ p ≤ 100) ∧
    ((collectRun duration initCollect ticks).2.2 = true →
      (collectRun duration initCollect ticks).2.1.getLast? = some 100) :=
  collectRun_progress duration hd ticks initCollect hb

/-- Witness for the amended C3: a run of one in-range detection-free
sample followed by completion. -/
theorem progress_bounds_and_completion_witness :
    (0 : ℝ) < 1 ∧
    (∀ (t : ℝ) (det : Option (List Landmark)),
      VTick.sample t det ∈ [VTick.sample (1/2) none, VTick.finished] →
      0 ≤ t ∧ t ≤ 1) ∧
    ((∀ p ∈ (collectRun 1 initCollect
        [VTick.sample (1/2) none, VTick.finished]).2.1, 0 ≤ p ∧ p ≤ 100) ∧
    ((collectRun 1 initCollect [VTick.sample (1/2) none, VTick.finished]).2.2 = true →
      (collectRun 1 initCollect
        [VTick.sample (1/2) none, VTick.finished]).2.1.getLast? = some 100)) :=
  ⟨by norm_num,
   by
    intro t det hm
    simp only [List.mem_cons, List.mem_singleton] at hm
    rcases hm with h | h | h
    · obtain ⟨rfl, -⟩ := VTick.sample.inj h
      norm_num
    · cases h
    · simp at h,
   progress_bounds_and_completion 1 [VTick.sample (1/2) none, VTick.finished]
     (by norm_num)
     (by
      intro t det hm
      simp only [List.mem_cons, List.mem_singleton] at hm
      rcases hm with h | h | h
      · obtain ⟨rfl, -⟩ := VTick.sample.inj h
        norm_num
      · cases h
      · simp at h)⟩
